import Mathlib

/-!
Verification of the tenant-aware token issuance and validation protocol of the
demoapimetric microservices: the JWT claims codec (`gomicro/jwtutil/jwt.go` and
`services/authen-service/pkg/jwtutil/jwt.go`), the OAuth2 grant handlers,
revocation and introspection (`services/oauth-service/internal/handler/token_handler.go`,
`services/oauth-service/internal/model`), and the authen-service login and
tenant handlers (`services/authen-service/internal/handler`).

Time is modelled as a natural number of seconds.  The HMAC signing primitive
is modelled symbolically: a signature is the triple of the key, the algorithm
and the signed payload, so a signature verifies exactly when it was produced
with the same key, algorithm and payload.  Database tables are lists of rows;
GORM's `First` is `List.find?`, GORM's `Update` on a `Where` clause is a map
over the rows.
-/

namespace Jwtutil

/-- JWT signing algorithms that can appear in a token header.
`golang-jwt` registers these method identifiers; the repository only ever
signs with `jwt.SigningMethodHS256`. -/
inductive Alg where
  | HS256
  | HS384
  | HS512
  | RS256
  | ES256
  deriving DecidableEq, Repr

/-- Whether the method is an instance of `*jwt.SigningMethodHMAC`
(the type assertion performed by the `keyfunc` in `ValidateToken`). -/
def Alg.isHMAC : Alg → Bool
  | .HS256 => true
  | .HS384 => true
  | .HS512 => true
  | _ => false

/-- The `jwt.RegisteredClaims` fields set by `GenerateTokenWithTenant`:
`ExpiresAt` and `IssuedAt`, as Unix seconds. -/
structure RegisteredClaims where
  expiresAt : Nat
  issuedAt : Nat
  deriving DecidableEq, Repr

/-- `UserClaims` from `jwtutil/jwt.go`: identity plus optional tenant context
plus the registered claims. -/
structure UserClaims where
  email : String
  userId : Nat
  tenantId : Option Nat
  tenantName : String
  role : String
  registered : RegisteredClaims
  deriving DecidableEq, Repr

/-- Symbolic HMAC signature: the MAC of `payload` under `key` using method
`alg`.  Two signatures are equal exactly when key, method and payload agree,
which models an ideal (collision-free, unforgeable) MAC. -/
structure Sig where
  key : String
  alg : Alg
  payload : UserClaims
  deriving DecidableEq, Repr

/-- Computing the HMAC: `token.SignedString([]byte(signingKey))` for the
claims, or `token.Method.Verify` recomputing the MAC on validation. -/
def hmacSign (key : String) (alg : Alg) (payload : UserClaims) : Sig :=
  ⟨key, alg, payload⟩

/-- A compact signed token: the header's algorithm, the payload claims and the
signature.  A forged token may carry any signature value. -/
structure Token where
  alg : Alg
  claims : UserClaims
  sig : Sig
  deriving DecidableEq, Repr

/-- `JWTConfig` from `jwtutil/jwt.go`: signing key and expiration in hours. -/
structure JWTConfig where
  signingKey : String
  expirationHours : Nat
  deriving DecidableEq, Repr

/-- Error outcomes of the codec, following `golang-jwt/jwt/v4`:
a nil configuration, a keyfunc failure on a non-HMAC method, claim
validation failures (expiry, issued-at in the future), or a bad signature. -/
inductive JwtError where
  | configMissing
  | unexpectedSigningMethod
  | tokenExpired
  | usedBeforeIssued
  | signatureInvalid
  deriving DecidableEq, Repr

/-- `GenerateTokenWithTenant` from `jwtutil/jwt.go`: with a configuration it
builds `UserClaims` with `ExpiresAt = now + ExpirationHours` hours and
`IssuedAt = now`, and signs them with `jwt.SigningMethodHS256` under the
configured key.  Without a configuration it returns an error. -/
def generateTokenWithTenant (config : Option JWTConfig) (now : Nat)
    (email : String) (userId : Nat) (tenantId : Option Nat)
    (tenantName : String) (role : String) : Except JwtError Token :=
  match config with
  | none => .error .configMissing
  | some cfg =>
      let claims : UserClaims :=
        { email := email
          userId := userId
          tenantId := tenantId
          tenantName := tenantName
          role := role
          registered := { expiresAt := now + cfg.expirationHours * 3600, issuedAt := now } }
      .ok { alg := .HS256, claims := claims, sig := hmacSign cfg.signingKey .HS256 claims }

/-- `GenerateToken`: `GenerateTokenWithTenant` with no tenant context. -/
def generateToken (config : Option JWTConfig) (now : Nat)
    (email : String) (userId : Nat) : Except JwtError Token :=
  generateTokenWithTenant config now email userId none "" ""

/-- `ValidateToken` from `jwtutil/jwt.go`, following `jwt.ParseWithClaims` of
`golang-jwt/jwt/v4`: the keyfunc rejects any method that is not
`*jwt.SigningMethodHMAC`; then the registered claims are validated
(`now < ExpiresAt` and `IssuedAt <= now`) and the signature is recomputed
under the configured key with the token's declared method.  Only a token
passing all checks is returned as claims. -/
def validateToken (config : Option JWTConfig) (now : Nat) (tok : Token) :
    Except JwtError UserClaims :=
  match config with
  | none => .error .configMissing
  | some cfg =>
      if tok.alg.isHMAC then
        if now < tok.claims.registered.expiresAt then
          if tok.claims.registered.issuedAt ≤ now then
            if tok.sig = hmacSign cfg.signingKey tok.alg tok.claims then
              .ok tok.claims
            else .error .signatureInvalid
          else .error .usedBeforeIssued
        else .error .tokenExpired
      else .error .unexpectedSigningMethod

end Jwtutil

namespace Jwtutil

/-- C4 — Codec round-trip: encoding claims (the five caller-supplied fields,
satisfying the invariant that tenant name and role are empty when no tenant id
is present) with a positive ttl and decoding with the same signing key at any
time from issuance up to (strictly before) expiry succeeds and returns the
same email, user id, tenant id, tenant name and role. -/
theorem c4_codec_round_trip (key : String) (h now t2 : Nat)
    (email : String) (userId : Nat) (tenantId : Option Nat)
    (tenantName role : String)
    (hinv : tenantId = none → tenantName = "" ∧ role = "")
    (hpos : 0 < h) (hle : now ≤ t2) (hexp : t2 < now + h * 3600) :
    ∃ tok : Token,
      generateTokenWithTenant (some ⟨key, h⟩) now email userId tenantId tenantName role
        = .ok tok ∧
      validateToken (some ⟨key, h⟩) t2 tok
        = .ok { email := email, userId := userId, tenantId := tenantId,
                tenantName := tenantName, role := role,
                registered := { expiresAt := now + h * 3600, issuedAt := now } } := by
  refine ⟨_, rfl, ?_⟩
  simp [validateToken, Alg.isHMAC, hexp, hle, hmacSign]

/-- Witness for C4 at a concrete input. -/
theorem c4_codec_round_trip_witness :
    ∃ tok : Token,
      generateTokenWithTenant (some ⟨"secret", 1⟩) 100 "a@b.c" 7 (some 3) "acme" "owner"
        = .ok tok ∧
      validateToken (some ⟨"secret", 1⟩) 150 tok
        = .ok { email := "a@b.c", userId := 7, tenantId := some 3,
                tenantName := "acme", role := "owner",
                registered := { expiresAt := 100 + 1 * 3600, issuedAt := 100 } } :=
  c4_codec_round_trip "secret" 1 100 150 "a@b.c" 7 (some 3) "acme" "owner"
    (by intro hc; cases hc) (by decide) (by decide) (by decide)

/-- C5 — Expiry is enforced on every decode: a token whose embedded
`expires-at` lies at or before the current time is rejected; for an
HMAC-family token (in particular every token produced by the encoder, whose
signature is correct for the configured key) the reported error is the expiry
error, and no expired token is ever returned as valid claims, whatever its
algorithm or signature. -/
theorem c5_expiry_enforced (cfg : JWTConfig) (now : Nat) (tok : Token)
    (hexp : tok.claims.registered.expiresAt ≤ now) :
    (tok.alg.isHMAC = true →
      validateToken (some cfg) now tok = .error .tokenExpired) ∧
    ∀ c : UserClaims, validateToken (some cfg) now tok ≠ .ok c := by
  constructor
  · intro halg
    simp [validateToken, halg, Nat.not_lt.mpr hexp]
  · intro c hok
    unfold validateToken at hok
    split at hok
    · exact absurd hok (by simp)
    · split at hok
      · rw [if_neg (by omega)] at hok
        exact absurd hok (by simp)
      · exact absurd hok (by simp)

/-- Witness for C5: a correctly signed token whose expiry equals the clock is
rejected with the expiry error. -/
theorem c5_expiry_enforced_witness :
    (Alg.isHMAC (Token.alg
        { alg := .HS256,
          claims := { email := "a@b.c", userId := 1, tenantId := none,
                      tenantName := "", role := "",
                      registered := { expiresAt := 50, issuedAt := 0 } },
          sig := hmacSign "k" .HS256
            { email := "a@b.c", userId := 1, tenantId := none,
              tenantName := "", role := "",
              registered := { expiresAt := 50, issuedAt := 0 } } }) = true →
      validateToken (some ⟨"k", 1⟩) 50
        { alg := .HS256,
          claims := { email := "a@b.c", userId := 1, tenantId := none,
                      tenantName := "", role := "",
                      registered := { expiresAt := 50, issuedAt := 0 } },
          sig := hmacSign "k" .HS256
            { email := "a@b.c", userId := 1, tenantId := none,
              tenantName := "", role := "",
              registered := { expiresAt := 50, issuedAt := 0 } } }
        = .error .tokenExpired) ∧
    ∀ c : UserClaims,
      validateToken (some ⟨"k", 1⟩) 50
        { alg := .HS256,
          claims := { email := "a@b.c", userId := 1, tenantId := none,
                      tenantName := "", role := "",
                      registered := { expiresAt := 50, issuedAt := 0 } },
          sig := hmacSign "k" .HS256
            { email := "a@b.c", userId := 1, tenantId := none,
              tenantName := "", role := "",
              registered := { expiresAt := 50, issuedAt := 0 } } }
        ≠ .ok c :=
  c5_expiry_enforced ⟨"k", 1⟩ 50 _ (by decide)

/-- C6 counterexample — the validator accepts a token whose header declares
HS384, a MAC algorithm different from the HS256 used at encoding, provided the
signature is a valid HS384 MAC under the configured key: the claim that no
token is accepted under a MAC algorithm other than the expected one is false. -/
theorem c6_alg_confusion_counterexample :
    (Token.alg
        { alg := .HS384,
          claims := { email := "a@b.c", userId := 1, tenantId := none,
                      tenantName := "", role := "",
                      registered := { expiresAt := 100, issuedAt := 0 } },
          sig := hmacSign "k" .HS384
            { email := "a@b.c", userId := 1, tenantId := none,
              tenantName := "", role := "",
              registered := { expiresAt := 100, issuedAt := 0 } } } ≠ Alg.HS256) ∧
    validateToken (some ⟨"k", 1⟩) 10
      { alg := .HS384,
        claims := { email := "a@b.c", userId := 1, tenantId := none,
                    tenantName := "", role := "",
                    registered := { expiresAt := 100, issuedAt := 0 } },
        sig := hmacSign "k" .HS384
          { email := "a@b.c", userId := 1, tenantId := none,
            tenantName := "", role := "",
            registered := { expiresAt := 100, issuedAt := 0 } } }
      = .ok { email := "a@b.c", userId := 1, tenantId := none,
              tenantName := "", role := "",
              registered := { expiresAt := 100, issuedAt := 0 } } := by
  constructor
  · decide
  · rfl

/-- C6 amended — Algorithm-confusion rejection, as the code implements it: the
validator's keyfunc rejects every token whose header declares a method outside
the HMAC family (`*jwt.SigningMethodHMAC`), so no token is ever accepted under
a non-HMAC algorithm; any HMAC-family method (HS256, HS384, HS512) whose
signature verifies under the configured key is accepted. -/
theorem c6_alg_confusion_amended (cfg : JWTConfig) (now : Nat) (tok : Token)
    (halg : tok.alg.isHMAC = false) :
    validateToken (some cfg) now tok = .error .unexpectedSigningMethod := by
  simp [validateToken, halg]

/-- Witness for C6 amended: an RS256-headed token is rejected by the keyfunc. -/
theorem c6_alg_confusion_amended_witness :
    validateToken (some ⟨"k", 1⟩) 10
      { alg := .RS256,
        claims := { email := "a@b.c", userId := 1, tenantId := none,
                    tenantName := "", role := "",
                    registered := { expiresAt := 100, issuedAt := 0 } },
        sig := hmacSign "k" .RS256
          { email := "a@b.c", userId := 1, tenantId := none,
            tenantName := "", role := "",
            registered := { expiresAt := 100, issuedAt := 0 } } }
      = .error .unexpectedSigningMethod :=
  c6_alg_confusion_amended ⟨"k", 1⟩ 10 _ (by decide)

end Jwtutil

namespace OAuth

/-- `model.AccessToken` from `oauth-service/internal/model/access_token.go`
(the GORM bookkeeping columns that the handlers never read are omitted;
`CreatedAt` is kept because introspection reports it as `iat`). -/
structure AccessTokenRow where
  id : String
  token : String
  clientId : String
  userId : Option Nat
  tenantId : Option Nat
  scopes : String
  expiresAt : Nat
  revoked : Bool
  createdAt : Nat
  deriving DecidableEq, Repr

/-- `model.RefreshToken` from `oauth-service` (columns read by the handlers). -/
structure RefreshTokenRow where
  id : String
  token : String
  accessTokenId : String
  clientId : String
  userId : Option Nat
  tenantId : Option Nat
  expiresAt : Nat
  revoked : Bool
  deriving DecidableEq, Repr

/-- `model.Client` from `oauth-service` (columns read by the token handlers).
`grants` and `scopes` are the raw stored strings. -/
structure Client where
  id : String
  secret : String
  grants : String
  scopes : String
  isActive : Bool
  deriving DecidableEq, Repr

/-- The oauth-service credential store: the persisted access and refresh
token tables. -/
structure DB where
  accessTokens : List AccessTokenRow
  refreshTokens : List RefreshTokenRow
  deriving DecidableEq, Repr

/-- `AccessToken.IsExpired`: `time.Now().After(t.ExpiresAt)`, i.e. the clock
is strictly past the expiry instant. -/
def AccessTokenRow.isExpired (t : AccessTokenRow) (now : Nat) : Bool :=
  now > t.expiresAt

/-- `AccessToken.IsValid`: not revoked and not expired. -/
def AccessTokenRow.isValid (t : AccessTokenRow) (now : Nat) : Bool :=
  !t.revoked && !t.isExpired now

/-- `RefreshToken.IsExpired`: `time.Now().After(t.ExpiresAt)`. -/
def RefreshTokenRow.isExpired (t : RefreshTokenRow) (now : Nat) : Bool :=
  now > t.expiresAt

/-- `RefreshToken.IsValid`: not revoked and not expired. -/
def RefreshTokenRow.isValid (t : RefreshTokenRow) (now : Nat) : Bool :=
  !t.revoked && !t.isExpired now

/-- `TokenConfig` from `token_handler.go`: access and refresh token
lifetimes, in seconds. -/
structure TokenConfig where
  accessTokenLifetime : Nat
  refreshTokenLifetime : Nat
  deriving DecidableEq, Repr

/-- The identifiers and opaque token strings produced by the random-id
generator (`generateSecureID` / `generateSecureToken` in the model's
`BeforeCreate` hooks) for one `createTokens` call. -/
structure Fresh where
  accessId : String
  accessToken : String
  refreshId : String
  refreshToken : String
  deriving DecidableEq, Repr

/-- `createTokens` from `token_handler.go`: inserts a new access token row
and a new refresh token row (paired through `AccessTokenID`), with expiry
`now` plus the configured lifetime and `revoked = false`. -/
def createTokens (cfg : TokenConfig) (db : DB) (clientId : String)
    (userId tenantId : Option Nat) (scopes : String) (now : Nat) (f : Fresh) :
    AccessTokenRow × RefreshTokenRow × DB :=
  let a : AccessTokenRow :=
    { id := f.accessId, token := f.accessToken, clientId := clientId,
      userId := userId, tenantId := tenantId, scopes := scopes,
      expiresAt := now + cfg.accessTokenLifetime, revoked := false,
      createdAt := now }
  let r : RefreshTokenRow :=
    { id := f.refreshId, token := f.refreshToken, accessTokenId := f.accessId,
      clientId := clientId, userId := userId, tenantId := tenantId,
      expiresAt := now + cfg.refreshTokenLifetime, revoked := false }
  (a, r, { accessTokens := db.accessTokens ++ [a],
           refreshTokens := db.refreshTokens ++ [r] })

/-- Auxiliary loop for `goSplitSpace`: walk the characters, cutting a field
at every space (the accumulator holds the current field reversed). -/
def goSplitSpaceAux : List Char → List Char → List String
  | [], acc => [String.mk acc.reverse]
  | c :: cs, acc =>
      if c = ' ' then String.mk acc.reverse :: goSplitSpaceAux cs []
      else goSplitSpaceAux cs (c :: acc)

/-- Go's `strings.Split(s, " ")`: split on every single space, keeping empty
fields; the empty string yields one empty field. -/
def goSplitSpace (s : String) : List String :=
  goSplitSpaceAux s.data []

/-- `validateScopes` from `token_handler.go`: an empty request keeps all
allowed scopes; otherwise the requested string is split on spaces, each word
is kept exactly when it occurs among the space-split allowed scopes (the
`allowedScopeMap` lookup), and the surviving words are joined with spaces. -/
def validateScopes (allowedScopes requestedScopes : String) : String :=
  if requestedScopes = "" then allowedScopes
  else
    let allowedList := goSplitSpace allowedScopes
    let validList := (goSplitSpace requestedScopes).foldl
      (fun acc s => if allowedList.contains s then acc ++ [s] else acc) []
    String.intercalate " " validList

/-- Outcome of a grant handler: the OAuth2 error codes it can emit, or the
issued pair together with the `scope` string of the JSON response. -/
inductive GrantResult where
  | invalidRequest
  | invalidGrant
  | serverError
  | issued (accessToken : AccessTokenRow) (refreshToken : RefreshTokenRow) (scope : String)
  deriving DecidableEq, Repr

/-- `handleClientCredentialsGrant`: intersect scopes, mint a pair with no
identity and no tenant. -/
def handleClientCredentialsGrant (cfg : TokenConfig) (db : DB) (client : Client)
    (requestedScopes : String) (now : Nat) (f : Fresh) : GrantResult × DB :=
  let finalScopes := validateScopes client.scopes requestedScopes
  let (a, r, db2) := createTokens cfg db client.id none none finalScopes now f
  (.issued a r finalScopes, db2)

/-- `handleRefreshTokenGrant`: look the presented string up by literal token
value, client id and `revoked = false`; reject a missing or expired row with
`invalid_grant`; otherwise carry the original access token's identity, tenant
and scope into a fresh pair and mark the presented refresh row revoked (the
GORM `Model(&refreshToken).Update` keys on its primary `ID`). -/
def handleRefreshTokenGrant (cfg : TokenConfig) (db : DB) (client : Client)
    (refreshTokenValue : String) (now : Nat) (f : Fresh) : GrantResult × DB :=
  if refreshTokenValue = "" then (.invalidRequest, db)
  else
    match db.refreshTokens.find? (fun rt =>
        rt.token == refreshTokenValue && rt.clientId == client.id && !rt.revoked) with
    | none => (.invalidGrant, db)
    | some rt =>
        if rt.isExpired now then (.invalidGrant, db)
        else
          match db.accessTokens.find? (fun a => a.id == rt.accessTokenId) with
          | none => (.serverError, db)
          | some orig =>
              let (a, r, db2) :=
                createTokens cfg db client.id orig.userId orig.tenantId orig.scopes now f
              let db3 : DB :=
                { db2 with refreshTokens := db2.refreshTokens.map (fun x =>
                    if x.id = rt.id then { x with revoked := true } else x) }
              (.issued a r a.scopes, db3)

/-- The mock `User` returned by `authenticateUser`. -/
structure MockUser where
  id : Nat
  username : String
  deriving DecidableEq, Repr

/-- `authenticateUser` from `token_handler.go`: a mock that accepts exactly
the demo credentials and ignores the tenant id string entirely. -/
def authenticateUser (username password _tenantIDStr : String) : Option MockUser :=
  if username = "test@example.com" ∧ password = "password" then
    some { id := 1, username := username }
  else none

/-- `strconv.ParseUint(s, 10, 32)`: succeeds on a non-empty all-digit string
whose value fits in 32 bits. -/
def goParseUint32 (s : String) : Option Nat :=
  if s.data ≠ [] ∧ s.data.all Char.isDigit then
    let n := s.data.foldl (fun acc c => acc * 10 + (c.toNat - 48)) 0
    if n < 2 ^ 32 then some n else none
  else none

/-- `handlePasswordGrant`: require username and password, authenticate via the
mock, parse the optional `tenant_id` form value, intersect scopes, and mint a
pair carrying the user id and the parsed tenant id.  No membership lookup of
any kind is performed before binding the tenant id. -/
def handlePasswordGrant (cfg : TokenConfig) (db : DB) (client : Client)
    (username password tenantIDStr requestedScopes : String) (now : Nat) (f : Fresh) :
    GrantResult × DB :=
  if username = "" ∨ password = "" then (.invalidRequest, db)
  else
    match authenticateUser username password tenantIDStr with
    | none => (.invalidGrant, db)
    | some user =>
        let tenantId? : Option (Option Nat) :=
          if tenantIDStr = "" then some none
          else match goParseUint32 tenantIDStr with
            | none => none
            | some t => some (some t)
        match tenantId? with
        | none => (.invalidRequest, db)
        | some tenantId =>
            let finalScopes := validateScopes client.scopes requestedScopes
            let (a, r, db2) :=
              createTokens cfg db client.id (some user.id) tenantId finalScopes now f
            (.issued a r finalScopes, db2)

/-- Outcome of the revocation endpoint: RFC 7009 requires 200 even when
nothing matched, so the only failure is a missing `token` parameter. -/
inductive RevokeResult where
  | invalidRequest
  | okStatus
  deriving DecidableEq, Repr

/-- The revocation update on the access token table (the GORM
`Model(&AccessToken).Where("token = ? AND client_id = ?").Update("revoked", true)`):
set `revoked` on every row matching the literal token string and client id. -/
def revokeAccessRows (l : List AccessTokenRow) (token cid : String) :
    List AccessTokenRow :=
  l.map (fun a =>
    if a.token = token ∧ a.clientId = cid then { a with revoked := true } else a)

/-- The revocation update on the refresh token table. -/
def revokeRefreshRows (l : List RefreshTokenRow) (token cid : String) :
    List RefreshTokenRow :=
  l.map (fun r =>
    if r.token = token ∧ r.clientId = cid then { r with revoked := true } else r)

/-- `RevokeToken` from `token_handler.go`: with hint `access_token` or no
hint, set `revoked` on every access row matching the literal token string and
the authenticated client's id; if that matched nothing (and the hint permits),
do the same on the refresh token table. -/
def revokeToken (db : DB) (client : Client) (token hint : String) :
    RevokeResult × DB :=
  if token = "" then (.invalidRequest, db)
  else
    let accessBranch := hint = "access_token" ∨ hint = ""
    let db1 := if accessBranch then
        { db with accessTokens := revokeAccessRows db.accessTokens token client.id }
      else db
    let success := accessBranch ∧
      db.accessTokens.any (fun a => a.token == token && a.clientId == client.id)
    let db2 := if (hint = "refresh_token" ∨ hint = "") ∧ ¬ success then
        { db1 with refreshTokens := revokeRefreshRows db1.refreshTokens token client.id }
      else db1
    (.okStatus, db2)

/-- Outcome of the introspection endpoint (`ValidateToken` handler). -/
inductive IntrospectResult where
  | invalidRequest
  | inactive
  | active (clientId : String) (exp iat : Nat) (scope : String)
      (userId tenantId : Option Nat)
  deriving DecidableEq, Repr

/-- `ValidateToken` from `token_handler.go` (the introspection endpoint): look
the access token up by its literal string; a missing, expired or revoked row
is reported `active: false`, otherwise the row's details are returned. -/
def validateToken (db : DB) (token : String) (now : Nat) : IntrospectResult :=
  if token = "" then .invalidRequest
  else
    match db.accessTokens.find? (fun a => a.token == token) with
    | none => .inactive
    | some a =>
        if !a.isExpired now && !a.revoked then
          .active a.clientId a.expiresAt a.createdAt a.scopes a.userId a.tenantId
        else .inactive

end OAuth

namespace OAuth

/-- The Go scope-filtering loop (append to an accumulator when the allowed
map contains the word) computes `List.filter`. -/
theorem scope_foldl_eq_filter (allowed : List String) (l acc : List String) :
    l.foldl (fun acc s => if allowed.contains s then acc ++ [s] else acc) acc
      = acc ++ l.filter (fun s => allowed.contains s) := by
  induction l generalizing acc with
  | nil => simp
  | cons x xs ih =>
      simp only [List.foldl_cons, List.filter_cons]
      by_cases h : allowed.contains x = true
      · rw [if_pos h, if_pos h, ih, List.append_assoc, List.singleton_append]
      · rw [if_neg h, if_neg h, ih]

/-- With a non-empty request, `validateScopes` returns the space-join of the
requested words that occur among the allowed words. -/
theorem validateScopes_eq_filter (a r : String) (hr : r ≠ "") :
    validateScopes a r = String.intercalate " "
      ((goSplitSpace r).filter (fun w => (goSplitSpace a).contains w)) := by
  simp only [validateScopes, if_neg hr]
  rw [scope_foldl_eq_filter, List.nil_append]

/-- C9 — Scope intersection: a client_credentials request with a non-empty
`scope` issues a token whose scope is exactly the space-join of those
requested words that also occur among the client's allowed words (unknown
requested words silently dropped, the request itself not failed), and every
word of the issued scope occurs among the client's allowed words. -/
theorem c9_scope_intersection (cfg : TokenConfig) (db : DB) (client : Client)
    (requested : String) (now : Nat) (f : Fresh) (hreq : requested ≠ "") :
    ∃ (a : AccessTokenRow) (r : RefreshTokenRow) (db2 : DB),
      handleClientCredentialsGrant cfg db client requested now f
        = (.issued a r a.scopes, db2) ∧
      a.scopes = String.intercalate " " ((goSplitSpace requested).filter
        (fun w => (goSplitSpace client.scopes).contains w)) ∧
      ∀ w ∈ (goSplitSpace requested).filter
        (fun w => (goSplitSpace client.scopes).contains w),
        w ∈ goSplitSpace client.scopes := by
  refine ⟨_, _, _, rfl, validateScopes_eq_filter _ _ hreq, ?_⟩
  intro w hw
  have h1 := List.of_mem_filter hw
  exact List.mem_of_elem_eq_true h1

/-- Witness for C9: the spec scenario — allowed scopes `read write`,
requested `read write delete` — issues scope `read write`. -/
theorem c9_scope_intersection_witness :
    ∃ (a : AccessTokenRow) (r : RefreshTokenRow) (db2 : DB),
      handleClientCredentialsGrant ⟨3600, 86400⟩ ⟨[], []⟩
          ⟨"cli_1", "sec", "client_credentials", "read write", true⟩
          "read write delete" 0 ⟨"tok_1", "at1", "ref_1", "rt1"⟩
        = (.issued a r a.scopes, db2) ∧
      a.scopes = "read write" := by
  obtain ⟨a, r, db2, h1, h2, _⟩ :=
    c9_scope_intersection ⟨3600, 86400⟩ ⟨[], []⟩
      ⟨"cli_1", "sec", "client_credentials", "read write", true⟩
      "read write delete" 0 ⟨"tok_1", "at1", "ref_1", "rt1"⟩ (by decide)
  exact ⟨a, r, db2, h1, by rw [h2]; rfl⟩

end OAuth

namespace OAuth

/-- The access token table after `RevokeToken` is either untouched or is the
client-scoped revocation update of the original table. -/
theorem revoke_accessTokens_cases (db : DB) (client : Client) (token hint : String) :
    (revokeToken db client token hint).2.accessTokens = db.accessTokens ∨
    (revokeToken db client token hint).2.accessTokens
      = revokeAccessRows db.accessTokens token client.id := by
  unfold revokeToken
  by_cases h0 : token = ""
  · rw [if_pos h0]; left; rfl
  · rw [if_neg h0]
    simp only []
    by_cases hA : hint = "access_token" ∨ hint = ""
    · right
      rw [if_pos hA]
      split <;> rfl
    · left
      rw [if_neg hA]
      split <;> rfl

/-- The refresh token table after `RevokeToken` is either untouched or is the
client-scoped revocation update of the original table. -/
theorem revoke_refreshTokens_cases (db : DB) (client : Client) (token hint : String) :
    (revokeToken db client token hint).2.refreshTokens = db.refreshTokens ∨
    (revokeToken db client token hint).2.refreshTokens
      = revokeRefreshRows db.refreshTokens token client.id := by
  unfold revokeToken
  by_cases h0 : token = ""
  · rw [if_pos h0]; left; rfl
  · rw [if_neg h0]
    simp only []
    split
    · right
      split <;> rfl
    · left
      split <;> rfl

/-- Pointwise frame property of the access-table revocation update. -/
theorem revokeAccessRows_frame (l : List AccessTokenRow) (token cid : String)
    (i : Nat) (h1 : i < l.length) (h2 : i < (revokeAccessRows l token cid).length) :
    ((revokeAccessRows l token cid)[i] ≠ l[i] →
      l[i].token = token ∧ l[i].clientId = cid ∧
      (revokeAccessRows l token cid)[i] = { l[i] with revoked := true }) ∧
    (l[i].clientId ≠ cid → (revokeAccessRows l token cid)[i] = l[i]) := by
  have hg : (revokeAccessRows l token cid)[i]
      = if l[i].token = token ∧ l[i].clientId = cid
        then { l[i] with revoked := true } else l[i] := by
    simp [revokeAccessRows]
  by_cases hc : l[i].token = token ∧ l[i].clientId = cid
  · rw [hg, if_pos hc]
    exact ⟨fun _ => ⟨hc.1, hc.2, rfl⟩, fun hne => absurd hc.2 hne⟩
  · rw [hg, if_neg hc]
    exact ⟨fun hne => absurd rfl hne, fun _ => rfl⟩

/-- Pointwise frame property of the refresh-table revocation update. -/
theorem revokeRefreshRows_frame (l : List RefreshTokenRow) (token cid : String)
    (i : Nat) (h1 : i < l.length) (h2 : i < (revokeRefreshRows l token cid).length) :
    ((revokeRefreshRows l token cid)[i] ≠ l[i] →
      l[i].token = token ∧ l[i].clientId = cid ∧
      (revokeRefreshRows l token cid)[i] = { l[i] with revoked := true }) ∧
    (l[i].clientId ≠ cid → (revokeRefreshRows l token cid)[i] = l[i]) := by
  have hg : (revokeRefreshRows l token cid)[i]
      = if l[i].token = token ∧ l[i].clientId = cid
        then { l[i] with revoked := true } else l[i] := by
    simp [revokeRefreshRows]
  by_cases hc : l[i].token = token ∧ l[i].clientId = cid
  · rw [hg, if_pos hc]
    exact ⟨fun _ => ⟨hc.1, hc.2, rfl⟩, fun hne => absurd hc.2 hne⟩
  · rw [hg, if_neg hc]
    exact ⟨fun hne => absurd rfl hne, fun _ => rfl⟩

/-- C10 — Revocation is scoped to the authenticated client: `RevokeToken`
keeps both tables the same length, a row can change only if its token string
and client id both match the request (and then only by setting `revoked`),
and every access or refresh row belonging to a different client is left
unchanged. -/
theorem c10_revocation_scoped (db : DB) (client : Client) (token hint : String) :
    (revokeToken db client token hint).2.accessTokens.length = db.accessTokens.length ∧
    (revokeToken db client token hint).2.refreshTokens.length = db.refreshTokens.length ∧
    (∀ (i : Nat) (h1 : i < db.accessTokens.length)
        (h2 : i < (revokeToken db client token hint).2.accessTokens.length),
      ((revokeToken db client token hint).2.accessTokens[i] ≠ db.accessTokens[i] →
        db.accessTokens[i].token = token ∧ db.accessTokens[i].clientId = client.id ∧
        (revokeToken db client token hint).2.accessTokens[i]
          = { db.accessTokens[i] with revoked := true }) ∧
      (db.accessTokens[i].clientId ≠ client.id →
        (revokeToken db client token hint).2.accessTokens[i] = db.accessTokens[i])) ∧
    (∀ (i : Nat) (h1 : i < db.refreshTokens.length)
        (h2 : i < (revokeToken db client token hint).2.refreshTokens.length),
      ((revokeToken db client token hint).2.refreshTokens[i] ≠ db.refreshTokens[i] →
        db.refreshTokens[i].token = token ∧ db.refreshTokens[i].clientId = client.id ∧
        (revokeToken db client token hint).2.refreshTokens[i]
          = { db.refreshTokens[i] with revoked := true }) ∧
      (db.refreshTokens[i].clientId ≠ client.id →
        (revokeToken db client token hint).2.refreshTokens[i] = db.refreshTokens[i])) := by
  obtain hA | hA := revoke_accessTokens_cases db client token hint <;>
    obtain hR | hR := revoke_refreshTokens_cases db client token hint <;>
      refine ⟨?_, ?_, ?_, ?_⟩ <;>
        simp only [hA, hR, revokeAccessRows, revokeRefreshRows, List.length_map] <;>
          first
          | rfl
          | (intro i h1 h2
             first
             | exact ⟨fun hne => absurd rfl hne, fun _ => rfl⟩
             | exact (by
                simpa [revokeAccessRows] using
                  revokeAccessRows_frame db.accessTokens token client.id i h1
                    (by simpa [revokeAccessRows] using h1))
             | exact (by
                simpa [revokeRefreshRows] using
                  revokeRefreshRows_frame db.refreshTokens token client.id i h1
                    (by simpa [revokeRefreshRows] using h1)))

end OAuth

namespace OAuth

/-- Concrete access token row owned by another client, used to witness the
revocation frame property. -/
def c10OtherRow : AccessTokenRow :=
  { id := "tok_9", token := "t1", clientId := "cli_other", userId := none,
    tenantId := none, scopes := "read", expiresAt := 100, revoked := false,
    createdAt := 0 }

/-- Witness for C10: a client revoking token string `t1` leaves another
client's row carrying the same token string unchanged. -/
theorem c10_revocation_scoped_witness :
    (revokeToken ⟨[c10OtherRow], []⟩
        ⟨"cli_1", "sec", "client_credentials", "read", true⟩ "t1" "").2.accessTokens.get
      ⟨0, of_decide_eq_true rfl⟩ = c10OtherRow := by
  have h := ((c10_revocation_scoped ⟨[c10OtherRow], []⟩
      ⟨"cli_1", "sec", "client_credentials", "read", true⟩ "t1" "").2.2.1 0
      (by decide) (by decide)).2 (by decide)
  exact h

/-- Concrete unrevoked access token row whose expiry instant equals the clock
reading used in the C7 counterexample. -/
def c7Row : AccessTokenRow :=
  { id := "tok_1", token := "t1", clientId := "cli_1", userId := none,
    tenantId := none, scopes := "read", expiresAt := 5, revoked := false,
    createdAt := 0 }

/-- C7 counterexample — at the boundary instant `now = expiresAt` the code
treats an unrevoked token as valid (`IsExpired` uses `time.Now().After`,
which is strict), so validity is not `revoked == false AND now < expiresAt`
as claimed: the claimed equivalence fails at this row. -/
theorem c7_strict_expiry_counterexample :
    ¬ (c7Row.isValid 5 = true ↔ (c7Row.revoked = false ∧ 5 < c7Row.expiresAt)) := by
  decide

/-- Helper: `p (f a) = p a` lets `find?` commute with `map f`. -/
theorem find?_map_comm {α : Type} (f : α → α) (p : α → Bool)
    (hp : ∀ a, p (f a) = p a) :
    ∀ l : List α, (l.map f).find? p = (l.find? p).map f := by
  intro l
  induction l with
  | nil => rfl
  | cons x xs ih =>
      by_cases h : p x = true
      · rw [List.map_cons, List.find?_cons_of_pos _ ((hp x).trans h),
          List.find?_cons_of_pos _ h, Option.map_some']
      · rw [List.map_cons, List.find?_cons_of_neg _ (by rw [hp]; simpa using h),
          List.find?_cons_of_neg _ (by simpa using h), ih]

/-- With a non-empty token and no hint, `RevokeToken` applies the
client-scoped revocation update to the access token table. -/
theorem revoke_empty_hint_accessTokens (db : DB) (client : Client) (s : String)
    (hs : s ≠ "") :
    (revokeToken db client s "").2.accessTokens
      = revokeAccessRows db.accessTokens s client.id := by
  unfold revokeToken
  rw [if_neg hs]
  simp only []
  rw [if_pos (show ("" : String) = "access_token" ∨ True from Or.inr trivial)]
  split <;> rfl

/-- C7 amended — Persisted-token validity, as the code implements it: a
persisted AccessToken is treated as valid exactly when `revoked == false` and
the current time is not strictly after `expiresAt` (so the token is still
valid at the boundary instant `now = expiresAt`); and after a client revokes
its access token, introspecting that token string reports inactive. -/
theorem c7_validity_amended :
    (∀ (t : AccessTokenRow) (now : Nat),
      t.isValid now = true ↔ (t.revoked = false ∧ now ≤ t.expiresAt)) ∧
    (∀ (db : DB) (client : Client) (s : String) (now : Nat), s ≠ "" →
      (∀ a ∈ db.accessTokens, a.token = s → a.clientId = client.id) →
      validateToken (revokeToken db client s "").2 s now = .inactive) := by
  constructor
  · intro t now
    simp [AccessTokenRow.isValid, AccessTokenRow.isExpired, Nat.not_lt]
  · intro db client s now hs hOwn
    unfold validateToken
    rw [if_neg hs, revoke_empty_hint_accessTokens db client s hs]
    unfold revokeAccessRows
    rw [find?_map_comm _ _ (by
      intro a
      by_cases hc : a.token = s ∧ a.clientId = client.id
      · rw [if_pos hc]
      · rw [if_neg hc])]
    cases hfind : db.accessTokens.find? (fun a => a.token == s) with
    | none => rfl
    | some a =>
        have hmem := List.mem_of_find?_eq_some hfind
        have hpa : a.token = s := by simpa using List.find?_some hfind
        have hcid := hOwn a hmem hpa
        have hga : (if a.token = s ∧ a.clientId = client.id
            then { a with revoked := true } else a) = { a with revoked := true } :=
          if_pos ⟨hpa, hcid⟩
        simp [hga, AccessTokenRow.isExpired]

/-- Witness for C7 amended: the validity equivalence at a concrete row, and
revoke-then-introspect on a one-row store reports inactive. -/
theorem c7_validity_amended_witness :
    (c7Row.isValid 3 = true ↔ (c7Row.revoked = false ∧ 3 ≤ c7Row.expiresAt)) ∧
    validateToken
      (revokeToken ⟨[c7Row], []⟩
        ⟨"cli_1", "sec", "client_credentials", "read", true⟩ "t1" "").2 "t1" 0
      = .inactive :=
  ⟨c7_validity_amended.1 c7Row 3,
   c7_validity_amended.2 ⟨[c7Row], []⟩
     ⟨"cli_1", "sec", "client_credentials", "read", true⟩ "t1" 0
     (by decide) (by decide)⟩

/-- C3 — the password grant binds the supplied `tenant_id` into the issued
pair although no membership data exists anywhere in the oauth-service store
and `authenticateUser` ignores the tenant argument: evaluating the handler at
the demo credentials with `tenant_id = 42` issues a pair whose rows carry
tenant 42. -/
theorem c3_password_grant_binds_unchecked_tenant :
    ∃ (a : AccessTokenRow) (r : RefreshTokenRow) (db2 : DB),
      handlePasswordGrant ⟨3600, 86400⟩ ⟨[], []⟩
          ⟨"cli_1", "sec", "password", "read", true⟩
          "test@example.com" "password" "42" "" 0 ⟨"tok_1", "at1", "ref_1", "rt1"⟩
        = (.issued a r "read", db2) ∧
      a.tenantId = some 42 ∧ a.userId = some 1 ∧ r.tenantId = some 42 := by
  exact ⟨_, _, _, rfl, rfl, rfl, rfl⟩

end OAuth

namespace OAuth

/-- One client-visible operation on the oauth-service credential store: a
grant exchange of one of the three supported grant types, or a revocation
call.  Each grant operation carries the fresh identifiers its `createTokens`
call will mint. -/
inductive Op where
  | refreshGrant (client : Client) (refreshTokenValue : String) (now : Nat) (f : Fresh)
  | clientCredentialsGrant (client : Client) (requestedScopes : String) (now : Nat) (f : Fresh)
  | passwordGrant (client : Client)
      (username password tenantIDStr requestedScopes : String) (now : Nat) (f : Fresh)
  | revoke (client : Client) (token hint : String)
  deriving DecidableEq

/-- The store after executing an operation (the handlers' database effect). -/
def Op.apply (cfg : TokenConfig) (db : DB) : Op → DB
  | .refreshGrant client v now f => (handleRefreshTokenGrant cfg db client v now f).2
  | .clientCredentialsGrant client req now f =>
      (handleClientCredentialsGrant cfg db client req now f).2
  | .passwordGrant client u p t rs now f =>
      (handlePasswordGrant cfg db client u p t rs now f).2
  | .revoke client token hint => (revokeToken db client token hint).2

/-- The opaque refresh-token string an operation may mint (`none` for
revocation, which creates no rows). -/
def Op.mintedRefresh : Op → Option String
  | .refreshGrant _ _ _ f => some f.refreshToken
  | .clientCredentialsGrant _ _ _ f => some f.refreshToken
  | .passwordGrant _ _ _ _ _ _ f => some f.refreshToken
  | .revoke _ _ _ => none

/-- No live copy of refresh token string `v` for client `cid` remains: every
refresh row carrying that token string for that client is revoked. -/
def noLiveRefresh (db : DB) (v cid : String) : Prop :=
  ∀ rt ∈ db.refreshTokens, rt.token = v → rt.clientId = cid → rt.revoked = true

/-- All members of a list of length at most one coincide. -/
theorem mem_eq_of_length_le_one {α : Type} {l : List α} (hl : l.length ≤ 1)
    {a b : α} (ha : a ∈ l) (hb : b ∈ l) : a = b := by
  match l with
  | [] => cases ha
  | [x] => rw [List.mem_singleton.mp ha, List.mem_singleton.mp hb]
  | x :: y :: t => simp [List.length_cons] at hl

/-- Refresh rows after a refresh_token grant: each row either descends from a
row of the original store (same token and client, revocation only ever added)
or carries the freshly minted refresh token string. -/
theorem handleRefreshTokenGrant_refresh_shape (cfg : TokenConfig) (db : DB)
    (client : Client) (v : String) (now : Nat) (f : Fresh) :
    ∀ rt ∈ (handleRefreshTokenGrant cfg db client v now f).2.refreshTokens,
      (∃ rt0, rt0 ∈ db.refreshTokens ∧ rt.token = rt0.token ∧
        rt.clientId = rt0.clientId ∧ (rt0.revoked = true → rt.revoked = true)) ∨
      rt.token = f.refreshToken := by
  intro rt hrt
  unfold handleRefreshTokenGrant at hrt
  split at hrt
  · exact Or.inl ⟨rt, hrt, rfl, rfl, id⟩
  · split at hrt
    · exact Or.inl ⟨rt, hrt, rfl, rfl, id⟩
    · rename_i rt0 hfind0
      split at hrt
      · exact Or.inl ⟨rt, hrt, rfl, rfl, id⟩
      · split at hrt
        · exact Or.inl ⟨rt, hrt, rfl, rfl, id⟩
        · simp only [createTokens] at hrt
          rcases List.mem_map.mp hrt with ⟨x, hx, hgx⟩
          rcases List.mem_append.mp hx with hxdb | hxnew
          · left
            by_cases hid : x.id = rt0.id
            · rw [← hgx, if_pos hid]
              exact ⟨x, hxdb, rfl, rfl, fun _ => rfl⟩
            · rw [← hgx, if_neg hid]
              exact ⟨x, hxdb, rfl, rfl, id⟩
          · right
            rw [List.mem_singleton.mp hxnew] at hgx
            rw [← hgx]
            split <;> rfl

/-- Refresh rows after a client_credentials grant: the original rows plus one
row carrying the freshly minted refresh token string. -/
theorem handleClientCredentialsGrant_refresh_shape (cfg : TokenConfig) (db : DB)
    (client : Client) (req : String) (now : Nat) (f : Fresh) :
    ∀ rt ∈ (handleClientCredentialsGrant cfg db client req now f).2.refreshTokens,
      rt ∈ db.refreshTokens ∨ rt.token = f.refreshToken := by
  intro rt hrt
  simp only [handleClientCredentialsGrant, createTokens] at hrt
  rcases List.mem_append.mp hrt with h | h
  · exact Or.inl h
  · right
    rw [List.mem_singleton.mp h]

/-- Refresh rows after a password grant: the original rows plus, on success,
one row carrying the freshly minted refresh token string. -/
theorem handlePasswordGrant_refresh_shape (cfg : TokenConfig) (db : DB)
    (client : Client) (u p t rs : String) (now : Nat) (f : Fresh) :
    ∀ rt ∈ (handlePasswordGrant cfg db client u p t rs now f).2.refreshTokens,
      rt ∈ db.refreshTokens ∨ rt.token = f.refreshToken := by
  intro rt hrt
  unfold handlePasswordGrant at hrt
  split at hrt
  · exact Or.inl hrt
  · split at hrt
    · exact Or.inl hrt
    · split at hrt
      · simp only [createTokens] at hrt
        rcases List.mem_append.mp hrt with h | h
        · exact Or.inl h
        · right
          rw [List.mem_singleton.mp h]
      · split at hrt
        · exact Or.inl hrt
        · simp only [createTokens] at hrt
          rcases List.mem_append.mp hrt with h | h
          · exact Or.inl h
          · right
            rw [List.mem_singleton.mp h]

/-- Refresh rows after a revocation call: each row descends from a row of the
original store, with revocation only ever added. -/
theorem revokeToken_refresh_shape (db : DB) (client : Client) (token hint : String) :
    ∀ rt ∈ (revokeToken db client token hint).2.refreshTokens,
      ∃ rt0, rt0 ∈ db.refreshTokens ∧ rt.token = rt0.token ∧
        rt.clientId = rt0.clientId ∧ (rt0.revoked = true → rt.revoked = true) := by
  intro rt hrt
  rcases revoke_refreshTokens_cases db client token hint with h | h
  · rw [h] at hrt
    exact ⟨rt, hrt, rfl, rfl, id⟩
  · rw [h] at hrt
    unfold revokeRefreshRows at hrt
    rcases List.mem_map.mp hrt with ⟨x, hx, hgx⟩
    by_cases hc : x.token = token ∧ x.clientId = client.id
    · rw [← hgx, if_pos hc]
      exact ⟨x, hx, rfl, rfl, fun _ => rfl⟩
    · rw [← hgx, if_neg hc]
      exact ⟨x, hx, rfl, rfl, id⟩

/-- Once no live copy of `v` remains for `cid`, no operation whose minted
refresh token string differs from `v` can bring one back. -/
theorem noLive_preserved (cfg : TokenConfig) (db : DB) (op : Op) (v cid : String)
    (h : noLiveRefresh db v cid) (hf : op.mintedRefresh ≠ some v) :
    noLiveRefresh (Op.apply cfg db op) v cid := by
  intro rt hrt htok hcid
  cases op with
  | refreshGrant client w now f =>
      rcases handleRefreshTokenGrant_refresh_shape cfg db client w now f rt hrt with
        ⟨rt0, h0, ht, hc, hm⟩ | hmint
      · exact hm (h rt0 h0 (ht ▸ htok) (hc ▸ hcid))
      · exact absurd (congrArg some (hmint ▸ htok)) hf
  | clientCredentialsGrant client req now f =>
      rcases handleClientCredentialsGrant_refresh_shape cfg db client req now f rt hrt with
        h0 | hmint
      · exact h rt h0 htok hcid
      · exact absurd (congrArg some (hmint ▸ htok)) hf
  | passwordGrant client u p t rs now f =>
      rcases handlePasswordGrant_refresh_shape cfg db client u p t rs now f rt hrt with
        h0 | hmint
      · exact h rt h0 htok hcid
      · exact absurd (congrArg some (hmint ▸ htok)) hf
  | revoke client token hint =>
      rcases revokeToken_refresh_shape db client token hint rt hrt with
        ⟨rt0, h0, ht, hc, hm⟩
      exact hm (h rt0 h0 (ht ▸ htok) (hc ▸ hcid))

/-- `noLiveRefresh` is preserved along any sequence of operations none of
which mints refresh token string `v`. -/
theorem noLive_foldl (cfg : TokenConfig) (v cid : String) :
    ∀ (ops : List Op) (db : DB), noLiveRefresh db v cid →
      (∀ op ∈ ops, op.mintedRefresh ≠ some v) →
      noLiveRefresh (ops.foldl (fun d op => Op.apply cfg d op) db) v cid := by
  intro ops
  induction ops with
  | nil => intro db h _; exact h
  | cons o os ih =>
      intro db h hops
      exact ih _ (noLive_preserved cfg db o v cid h (hops o (List.mem_cons_self o os)))
        (fun op hop => hops op (List.mem_cons_of_mem o hop))

/-- A refresh exchange presenting `v` for a client with no live copy of `v`
is rejected with `invalid_grant` and leaves the store unchanged. -/
theorem exchange_fails_of_noLive (cfg : TokenConfig) (db : DB) (client : Client)
    (v : String) (now : Nat) (f : Fresh) (hv : v ≠ "")
    (h : noLiveRefresh db v client.id) :
    handleRefreshTokenGrant cfg db client v now f = (.invalidGrant, db) := by
  unfold handleRefreshTokenGrant
  rw [if_neg hv]
  have hfind : db.refreshTokens.find? (fun rt =>
      rt.token == v && rt.clientId == client.id && !rt.revoked) = none := by
    rw [List.find?_eq_none]
    intro rt hrt hb
    simp only [Bool.and_eq_true, beq_iff_eq, Bool.not_eq_true'] at hb
    exact absurd (h rt hrt hb.1.1 hb.1.2) (by simp [hb.2])
  rw [hfind]

end OAuth

namespace OAuth

/-- C1 — Refresh one-time-use: if a refresh exchange presenting `v` for a
client succeeds (issuing a fresh pair and a new store `db1`), then — provided
the opaque token strings are unique, i.e. at most one live row carried `v`
for this client and the minted strings differ from `v` — every copy of `v`
for this client is revoked in `db1`, and after any further sequence of grant
or revocation operations none of which mints the string `v`, presenting `v`
again with the same client is rejected with `invalid_grant` and leaves the
store unchanged: a consumed refresh token is never successfully exchanged
again. -/
theorem c1_refresh_one_time_use (cfg : TokenConfig) (db : DB) (client : Client)
    (v : String) (now : Nat) (f : Fresh)
    (a : AccessTokenRow) (r : RefreshTokenRow) (s : String) (db1 : DB)
    (ops : List Op) (now2 : Nat) (f2 : Fresh)
    (huniq : (db.refreshTokens.filter (fun rt =>
      rt.token == v && rt.clientId == client.id && !rt.revoked)).length ≤ 1)
    (hfresh : f.refreshToken ≠ v)
    (hops : ∀ op ∈ ops, op.mintedRefresh ≠ some v)
    (hsucc : handleRefreshTokenGrant cfg db client v now f = (.issued a r s, db1)) :
    noLiveRefresh db1 v client.id ∧
    handleRefreshTokenGrant cfg
        (ops.foldl (fun d op => Op.apply cfg d op) db1) client v now2 f2
      = (.invalidGrant, ops.foldl (fun d op => Op.apply cfg d op) db1) := by
  have hv : v ≠ "" := by
    intro h
    rw [h] at hsucc
    unfold handleRefreshTokenGrant at hsucc
    simp at hsucc
  have hno : noLiveRefresh db1 v client.id := by
    unfold handleRefreshTokenGrant at hsucc
    rw [if_neg hv] at hsucc
    split at hsucc
    · exact absurd hsucc (by simp)
    · rename_i rt0 hfind0
      split at hsucc
      · exact absurd hsucc (by simp)
      · split at hsucc
        · exact absurd hsucc (by simp)
        · simp only [createTokens] at hsucc
          injection hsucc with hres hdb1
          rw [← hdb1]
          intro rt hrt htok hcid
          rcases List.mem_map.mp hrt with ⟨x, hx, hgx⟩
          subst hgx
          rcases List.mem_append.mp hx with hxdb | hxnew
          · by_cases hid : x.id = rt0.id
            · simp [if_pos hid]
            · rw [if_neg hid] at htok hcid ⊢
              by_cases hrev : x.revoked = true
              · exact hrev
              · exfalso
                have hrev2 : x.revoked = false := by
                  cases hb : x.revoked with
                  | false => rfl
                  | true => exact absurd hb hrev
                have hpred : (x.token == v && x.clientId == client.id && !x.revoked) = true := by
                  simp [htok, hcid, hrev2]
                have hxf : x ∈ db.refreshTokens.filter (fun rt =>
                    rt.token == v && rt.clientId == client.id && !rt.revoked) :=
                  List.mem_filter.mpr ⟨hxdb, hpred⟩
                have hp0 := List.find?_some hfind0
                have hrt0f : rt0 ∈ db.refreshTokens.filter (fun rt =>
                    rt.token == v && rt.clientId == client.id && !rt.revoked) :=
                  List.mem_filter.mpr
                    ⟨List.mem_of_find?_eq_some hfind0, hp0⟩
                exact hid (congrArg RefreshTokenRow.id
                  (mem_eq_of_length_le_one huniq hxf hrt0f))
          · exfalso
            have hx2 := List.mem_singleton.mp hxnew
            subst hx2
            have htk : f.refreshToken = v := by
              revert htok
              split <;> exact fun h => h
            exact hfresh htk
  refine ⟨hno, exchange_fails_of_noLive cfg _ client v now2 f2 hv ?_⟩
  exact noLive_foldl cfg v client.id ops db1 hno hops

/-- The client used by the C1 witness. -/
def c1Client : Client :=
  { id := "cli_1", secret := "sec", grants := "refresh_token", scopes := "read",
    isActive := true }

/-- The original access token of the C1 witness pair. -/
def c1OrigAccess : AccessTokenRow :=
  { id := "tok_0", token := "at0", clientId := "cli_1", userId := some 1,
    tenantId := some 2, scopes := "read", expiresAt := 100, revoked := false,
    createdAt := 0 }

/-- The freshly issued refresh token presented in the C1 witness. -/
def c1OrigRefresh : RefreshTokenRow :=
  { id := "ref_0", token := "rt0", accessTokenId := "tok_0", clientId := "cli_1",
    userId := some 1, tenantId := some 2, expiresAt := 1000, revoked := false }

/-- The access token minted by the witness exchange. -/
def c1NewAccess : AccessTokenRow :=
  { id := "tok_1", token := "at1", clientId := "cli_1", userId := some 1,
    tenantId := some 2, scopes := "read", expiresAt := 3600, revoked := false,
    createdAt := 0 }

/-- The refresh token minted by the witness exchange. -/
def c1NewRefresh : RefreshTokenRow :=
  { id := "ref_1", token := "rt1", accessTokenId := "tok_1", clientId := "cli_1",
    userId := some 1, tenantId := some 2, expiresAt := 86400, revoked := false }

/-- The store after the witness exchange: the old refresh token revoked, the
new pair appended. -/
def c1Db1 : DB :=
  { accessTokens := [c1OrigAccess, c1NewAccess],
    refreshTokens := [{ c1OrigRefresh with revoked := true }, c1NewRefresh] }

/-- Witness for C1: exchanging `rt0` once succeeds; afterwards no live copy of
`rt0` remains and an immediate replay returns `invalid_grant`. -/
theorem c1_refresh_one_time_use_witness :
    noLiveRefresh c1Db1 "rt0" "cli_1" ∧
    handleRefreshTokenGrant ⟨3600, 86400⟩ c1Db1 c1Client "rt0" 99
        ⟨"tok_2", "at2", "ref_2", "rt2"⟩
      = (.invalidGrant, c1Db1) :=
  c1_refresh_one_time_use ⟨3600, 86400⟩ ⟨[c1OrigAccess], [c1OrigRefresh]⟩
    c1Client "rt0" 0 ⟨"tok_1", "at1", "ref_1", "rt1"⟩
    c1NewAccess c1NewRefresh "read" c1Db1 [] 99 ⟨"tok_2", "at2", "ref_2", "rt2"⟩
    (by decide) (by decide)
    (fun op hop => absurd hop (List.not_mem_nil op))
    (by decide)

end OAuth

namespace Authen

/-- `model.User` from `authen-service` (columns read by the handlers):
`tenantId` is the user's flagged default tenant. -/
structure User where
  id : Nat
  email : String
  password : String
  tenantId : Option Nat
  deriving DecidableEq, Repr

/-- `model.Tenant` from `authen-service` (columns read by the handlers). -/
structure Tenant where
  id : Nat
  name : String
  ownerId : Nat
  active : Bool
  deriving DecidableEq, Repr

/-- `model.UserTenant` from `authen-service`: the membership row. -/
structure UserTenant where
  id : Nat
  userId : Nat
  tenantId : Nat
  role : String
  isDefault : Bool
  active : Bool
  deriving DecidableEq, Repr

/-- The authen-service database. -/
structure AuthDB where
  users : List User
  tenants : List Tenant
  userTenants : List UserTenant
  deriving DecidableEq, Repr

/-- Outcome of the `Login` handler: 400, 401 (invalid credentials), 403
(access denied to the specified tenant), 500, or 200 with a signed token and
the optional tenant context echoed in the response body. -/
inductive LoginResult where
  | badRequest
  | unauthorized
  | forbidden
  | serverError
  | ok (token : Jwtutil.Token) (tenant : Option (Nat × String × String))
  deriving DecidableEq, Repr

/-- `Login` from `auth_handler.go`.  `verify hash password` stands for
`bcrypt.CompareHashAndPassword` succeeding.  The user is looked up by email
(401 on a miss), the password is verified (401 on mismatch); if the request
carries a tenant id, an active membership row for (user, tenant) is required
and its absence is a 403 with no token; otherwise the user's default tenant,
if any, supplies the context.  The token is minted by the JWT codec. -/
def login (db : AuthDB) (verify : String → String → Bool)
    (email password : String) (reqTenantId : Option Nat)
    (cfg : Jwtutil.JWTConfig) (now : Nat) : LoginResult :=
  match db.users.find? (fun u => u.email == email) with
  | none => .unauthorized
  | some user =>
      if verify user.password password then
        match reqTenantId with
        | some t =>
            match db.userTenants.find? (fun ut =>
                ut.userId == user.id && ut.tenantId == t && ut.active) with
            | none => .forbidden
            | some ut =>
                let tenantName := match db.tenants.find? (fun tn => tn.id == t) with
                  | some tn => tn.name
                  | none => ""
                match Jwtutil.generateTokenWithTenant (some cfg) now user.email
                    user.id (some t) tenantName ut.role with
                | .ok tok => .ok tok (some (t, tenantName, ut.role))
                | .error _ => .serverError
        | none =>
            match user.tenantId with
            | some dt =>
                let tenantName := match db.tenants.find? (fun tn => tn.id == dt) with
                  | some tn => tn.name
                  | none => ""
                let role := match db.userTenants.find? (fun ut =>
                    ut.userId == user.id && ut.tenantId == dt) with
                  | some ut => ut.role
                  | none => ""
                match Jwtutil.generateTokenWithTenant (some cfg) now user.email
                    user.id (some dt) tenantName role with
                | .ok tok => .ok tok (some (dt, tenantName, role))
                | .error _ => .serverError
            | none =>
                match Jwtutil.generateToken (some cfg) now user.email user.id with
                | .ok tok => .ok tok none
                | .error _ => .serverError
      else .unauthorized

/-- C2 — Tenant isolation at login: when the authenticated identity has no
active membership row for the requested tenant, `Login` returns 403
(access denied), issuing no token at all — in particular it is never
downgraded to a token without tenant context or with a different tenant —
regardless of whether the tenant itself exists and is active. -/
theorem c2_login_tenant_isolation (db : AuthDB) (verify : String → String → Bool)
    (email password : String) (t : Nat) (cfg : Jwtutil.JWTConfig) (now : Nat)
    (u : User)
    (hfind : db.users.find? (fun x => x.email == email) = some u)
    (hpw : verify u.password password = true)
    (hnomem : ∀ ut ∈ db.userTenants,
      ¬(ut.userId = u.id ∧ ut.tenantId = t ∧ ut.active = true)) :
    login db verify email password (some t) cfg now = .forbidden := by
  have hfind2 : db.userTenants.find? (fun ut =>
      ut.userId == u.id && ut.tenantId == t && ut.active) = none := by
    rw [List.find?_eq_none]
    intro ut hut hb
    simp only [Bool.and_eq_true, beq_iff_eq] at hb
    exact hnomem ut hut ⟨hb.1.1, hb.1.2, hb.2⟩
  unfold login
  rw [hfind]
  simp only [hpw, if_true, hfind2]

/-- Witness for C2: the tenant (id 2) exists and is active, but user 1 only
holds a membership in tenant 3, so a login requesting tenant 2 is denied. -/
theorem c2_login_tenant_isolation_witness :
    login
      { users := [{ id := 1, email := "u1@x.com", password := "hash1", tenantId := none }],
        tenants := [{ id := 2, name := "acme", ownerId := 5, active := true }],
        userTenants := [{ id := 10, userId := 1, tenantId := 3, role := "member",
                          isDefault := true, active := true }] }
      (fun stored given => stored == given) "u1@x.com" "hash1" (some 2)
      ⟨"key", 1⟩ 0 = .forbidden :=
  c2_login_tenant_isolation
    { users := [{ id := 1, email := "u1@x.com", password := "hash1", tenantId := none }],
      tenants := [{ id := 2, name := "acme", ownerId := 5, active := true }],
      userTenants := [{ id := 10, userId := 1, tenantId := 3, role := "member",
                        isDefault := true, active := true }] }
    (fun stored given => stored == given) "u1@x.com" "hash1" 2 ⟨"key", 1⟩ 0
    { id := 1, email := "u1@x.com", password := "hash1", tenantId := none }
    (by decide) (by decide) (by decide)

end Authen

namespace Authen

/-- Outcome of the `SetDefaultTenant` handler (the authenticated user id is
taken as a parameter, as the middleware provides it). -/
inductive SetDefaultResult where
  | badRequest
  | forbidden
  | okStatus
  deriving DecidableEq, Repr

/-- `SetDefaultTenant` from `tenant_handler.go`: require a non-zero tenant id
and an active membership of the caller in that tenant (403 otherwise); then,
in one transaction, clear `is_default` on all of the caller's membership rows
(`Where("user_id = ?").Update("is_default", false)`), save the found
membership row back with `IsDefault = true` (GORM `Save` writes the full
in-memory struct keyed on its primary `ID`), and set the user's `tenant_id`
column. -/
def setDefaultTenant (db : AuthDB) (userId tenantId : Nat) :
    SetDefaultResult × AuthDB :=
  if tenantId = 0 then (.badRequest, db)
  else
    match db.userTenants.find? (fun ut =>
        ut.userId == userId && ut.tenantId == tenantId && ut.active) with
    | none => (.forbidden, db)
    | some ut =>
        let cleared := db.userTenants.map (fun r =>
          if r.userId = userId then { r with isDefault := false } else r)
        let afterSave := cleared.map (fun r =>
          if r.id = ut.id then { ut with isDefault := true } else r)
        let users2 := db.users.map (fun us =>
          if us.id = userId then { us with tenantId := some tenantId } else us)
        (.okStatus, { db with userTenants := afterSave, users := users2 })

/-- After clearing all of the user's defaults and saving the found membership
back with the default flag, the user's defaulted memberships are exactly that
one row (assuming membership row ids are unique, which the primary key
guarantees). -/
theorem filter_default_singleton (userId tenantId : Nat) (ut : UserTenant) :
    ∀ l : List UserTenant, (l.map (fun r => r.id)).Nodup →
      l.find? (fun r => r.userId == userId && r.tenantId == tenantId && r.active)
        = some ut →
      ((l.map (fun r => if r.userId = userId then { r with isDefault := false } else r)).map
          (fun r => if r.id = ut.id then { ut with isDefault := true } else r)).filter
        (fun r => r.userId == userId && r.isDefault)
      = [{ ut with isDefault := true }] := by
  intro l
  induction l with
  | nil => intro _ h; cases h
  | cons x xs ih =>
      intro hnodup hfind
      rw [List.map_cons] at hnodup
      have hxid := (List.nodup_cons.mp hnodup).1
      have hnodup2 := (List.nodup_cons.mp hnodup).2
      rw [List.map_cons, List.map_cons, List.filter_cons]
      by_cases hp : (x.userId == userId && x.tenantId == tenantId && x.active) = true
      · rw [@List.find?_cons_of_pos _
          (fun r => r.userId == userId && r.tenantId == tenantId && r.active)
          x xs hp] at hfind
        injection hfind with hx
        subst hx
        simp only [Bool.and_eq_true, beq_iff_eq] at hp
        have hclear : (if x.userId = userId then { x with isDefault := false } else x)
            = { x with isDefault := false } := if_pos hp.1.1
        rw [hclear]
        have hsave : (if ({ x with isDefault := false } : UserTenant).id = x.id
            then { x with isDefault := true } else ({ x with isDefault := false } : UserTenant))
            = { x with isDefault := true } := if_pos rfl
        rw [hsave]
        have hpred : (({ x with isDefault := true } : UserTenant).userId == userId
            && ({ x with isDefault := true } : UserTenant).isDefault) = true := by
          simp [hp.1.1]
        rw [if_pos hpred]
        have htail : ((xs.map (fun r =>
            if r.userId = userId then { r with isDefault := false } else r)).map
              (fun r => if r.id = x.id then { x with isDefault := true } else r)).filter
            (fun r => r.userId == userId && r.isDefault) = [] := by
          rw [List.filter_eq_nil]
          intro z hz
          rcases List.mem_map.mp hz with ⟨y1, hy1, hz1⟩
          rcases List.mem_map.mp hy1 with ⟨y, hy, hy2⟩
          have hyid : y.id ≠ x.id := by
            intro hcontra
            exact hxid (hcontra ▸ List.mem_map_of_mem (fun r => r.id) hy)
          have hy1id : y1.id = y.id := by
            rw [← hy2]
            split <;> rfl
          rw [← hz1, if_neg (hy1id ▸ hyid), ← hy2]
          by_cases hyu : y.userId = userId
          · rw [if_pos hyu]
            simp
          · rw [if_neg hyu]
            simp [hyu]
        rw [htail]
      · rw [@List.find?_cons_of_neg _
          (fun r => r.userId == userId && r.tenantId == tenantId && r.active)
          x xs hp] at hfind
        have hutmem := List.mem_of_find?_eq_some hfind
        have hxut : x.id ≠ ut.id := by
          intro hcontra
          exact hxid (hcontra ▸ List.mem_map_of_mem (fun r => r.id) hutmem)
        have hclearid : (if x.userId = userId then { x with isDefault := false } else x).id
            = x.id := by
          split <;> rfl
        have hdrop : ((if (if x.userId = userId then { x with isDefault := false } else x).id
              = ut.id then { ut with isDefault := true }
            else (if x.userId = userId then { x with isDefault := false } else x)).userId
              == userId
            && (if (if x.userId = userId then { x with isDefault := false } else x).id
              = ut.id then { ut with isDefault := true }
            else (if x.userId = userId then { x with isDefault := false } else x)).isDefault)
            = false := by
          have hnotid : ¬ ((if x.userId = userId then { x with isDefault := false }
              else x).id = ut.id) := by
            rw [hclearid]
            exact hxut
          rw [if_neg hnotid]
          by_cases hxu : x.userId = userId
          · rw [if_pos hxu]
            simp
          · rw [if_neg hxu]
            simp [hxu]
        rw [if_neg (by rw [hdrop]; simp)]
        exact ih hnodup2 hfind

/-- C8 — Default-tenant uniqueness: a successful set-default-tenant call for
tenant T (caller has an active membership there, membership ids unique)
leaves exactly one of the caller's membership rows with the default flag —
the membership for T, saved back with `IsDefault = true` — the whole update
running inside one transaction in the handler. -/
theorem c8_default_tenant_unique (db : AuthDB) (userId tenantId : Nat)
    (ut : UserTenant)
    (hnodup : (db.userTenants.map (fun r => r.id)).Nodup)
    (htid : tenantId ≠ 0)
    (hfind : db.userTenants.find? (fun r =>
      r.userId == userId && r.tenantId == tenantId && r.active) = some ut) :
    (setDefaultTenant db userId tenantId).1 = .okStatus ∧
    (setDefaultTenant db userId tenantId).2.userTenants.filter
        (fun r => r.userId == userId && r.isDefault)
      = [{ ut with isDefault := true }] ∧
    ut.tenantId = tenantId ∧ ut.userId = userId := by
  have hp := List.find?_some hfind
  simp only [Bool.and_eq_true, beq_iff_eq] at hp
  refine ⟨?_, ?_, hp.1.2, hp.1.1⟩
  · simp only [setDefaultTenant, if_neg htid, hfind]
  · simp only [setDefaultTenant, if_neg htid, hfind]
    exact filter_default_singleton userId tenantId ut db.userTenants hnodup hfind

/-- Witness for C8: user 1 holds memberships in tenants 2 (current default)
and 3; setting tenant 3 as default leaves exactly the tenant-3 membership
flagged. -/
theorem c8_default_tenant_unique_witness :
    (setDefaultTenant
        { users := [{ id := 1, email := "u1@x.com", password := "h", tenantId := some 2 }],
          tenants := [],
          userTenants :=
            [{ id := 10, userId := 1, tenantId := 2, role := "owner",
               isDefault := true, active := true },
             { id := 11, userId := 1, tenantId := 3, role := "member",
               isDefault := false, active := true }] } 1 3).1 = .okStatus ∧
    (setDefaultTenant
        { users := [{ id := 1, email := "u1@x.com", password := "h", tenantId := some 2 }],
          tenants := [],
          userTenants :=
            [{ id := 10, userId := 1, tenantId := 2, role := "owner",
               isDefault := true, active := true },
             { id := 11, userId := 1, tenantId := 3, role := "member",
               isDefault := false, active := true }] } 1 3).2.userTenants.filter
        (fun r => r.userId == 1 && r.isDefault)
      = [{ id := 11, userId := 1, tenantId := 3, role := "member",
           isDefault := true, active := true }] ∧
    (3 : Nat) = 3 ∧ (1 : Nat) = 1 :=
  c8_default_tenant_unique
    { users := [{ id := 1, email := "u1@x.com", password := "h", tenantId := some 2 }],
      tenants := [],
      userTenants :=
        [{ id := 10, userId := 1, tenantId := 2, role := "owner",
           isDefault := true, active := true },
         { id := 11, userId := 1, tenantId := 3, role := "member",
           isDefault := false, active := true }] } 1 3
    { id := 11, userId := 1, tenantId := 3, role := "member",
      isDefault := false, active := true }
    (by decide) (by decide) (by decide)

end Authen
